import Mathlib

/-!
Verification of the HX711 load-cell driver (bit-banged two-wire protocol,
retry wrapper and periodic sampling callback).

The driver is embedded shallowly:

* The DOUT pin is an input the environment controls.  A raw read observes
  DOUT as a stream `dout : Nat → Bool` indexed by the order in which the
  driver samples the pin (ready-wait polls first, then the 24 data bits,
  then the post-gain-pulse check).  `true` models the line reading high.
* Machine integers are modelled as `Nat`/`Int` with explicit `% 2 ^ 32`
  where the 32-bit register width matters; `int32_t` return values are
  produced through `toInt32`.
* The retry wrapper is driven by an oracle `read : Nat → Int` giving the
  result of the k-th invocation of the raw read, and it records a trace of
  observable events (attempts and power-down/power-up recovery actions).
* The sampling callback's static variables become an explicit state record;
  its externally visible actions (reinitialisation, notification,
  rescheduling) are returned alongside the new state.
-/

namespace HX711

/-- `INT32_MIN`, the timeout sentinel of the driver. -/
def INT32_MIN : Int := -(2 ^ 31)

/-- `INT32_MAX`, the communication-error sentinel of the driver. -/
def INT32_MAX : Int := 2 ^ 31 - 1

/-- `HX711_TIMEOUT_COUNT`: initial value of the ready-wait timeout counter. -/
def HX711_TIMEOUT_COUNT : Nat := 50000

/-- Reinterpret a 32-bit pattern (a `Nat` below `2 ^ 32`) as a signed
two's-complement `int32_t` value. -/
def toInt32 (n : Nat) : Int :=
  if n < 2 ^ 31 then (n : Int) else (n : Int) - 2 ^ 32

/-- The ready-wait loop of `hx711_read_improved` (src/.c lines 101-118):

    uint32_t timeout = HX711_TIMEOUT_COUNT;
    while (GPIO_GetPinStatus(DOUT)) {
        if (timeout == 0) return INT32_MIN;
        timeout--;
        arch_asm_delay_us(1);
    }

`waitLoop dout timeout t` polls the pin starting at stream index `t`;
it returns `(timedOut, t')` where `t'` is the index one past the last pin
sample taken (so `t' - t` is the number of polls performed). -/
def waitLoop (dout : Nat → Bool) : Nat → Nat → Bool × Nat
  | 0, t => if dout t then (true, t + 1) else (false, t + 1)
  | tm + 1, t => if dout t then waitLoop dout tm (t + 1) else (false, t + 1)

/-- The 24-bit shift loop of `hx711_read_improved` (src/.c lines 121-137):
for each bit, pulse SCK, `value <<= 1`, then sample DOUT and `value |= 1`
if the line is high.  `value` is a 32-bit register, hence the `% 2 ^ 32`
on the shift.  Bits are consumed MSB-first from stream index `t`. -/
def readBitsLoop (dout : Nat → Bool) : Nat → Nat → Nat → Nat
  | 0, _, value => value
  | f + 1, t, value =>
    let v1 := value * 2 % 2 ^ 32
    let v2 := if dout t then v1 ||| 1 else v1
    readBitsLoop dout f (t + 1) v2

/-- Sign-extension step of `hx711_read_improved` (src/.c lines 154-157):

    if (value & 0x800000) { value |= 0xFF000000; } -/
def signExtend24 (value : Nat) : Nat :=
  if value &&& 0x800000 ≠ 0 then value ||| 0xFF000000 else value

/-- Observable outcome of one raw read: the returned `int32_t`, the number
of ready-wait polls of DOUT, the number of iterations of the 24-bit shift
loop, and the number of SCK pulses issued (24 data pulses plus the
gain-select pulse on the success path). -/
structure ReadOut where
  value : Int
  polls : Nat
  bitsClocked : Nat
  clockPulses : Nat
deriving DecidableEq

/-- `hx711_read_improved` (src/.c lines 97-160).  The initial
`GPIO_SetInactive(SCK)` and the delays have no observable effect in this
model.  On ready-wait timeout the function returns `INT32_MIN` before the
bit loop runs.  Otherwise it clocks 24 bits, issues the 25th (gain-select)
pulse, samples DOUT once more (src/.c line 147) — the result of that check
is discarded and never alters the returned value — then sign-extends. -/
def hx711_read_improved (dout : Nat → Bool) : ReadOut :=
  let w := waitLoop dout HX711_TIMEOUT_COUNT 0
  if w.1 then
    { value := INT32_MIN, polls := w.2, bitsClocked := 0, clockPulses := 0 }
  else
    let raw := readBitsLoop dout 24 w.2 0
    let _gainCheck := dout (w.2 + 24)
    { value := toInt32 (signExtend24 raw), polls := w.2,
      bitsClocked := 24, clockPulses := 25 }

/-- Observable events of the retry wrapper: a raw-read attempt carrying its
result, and the two halves of the power-cycle recovery step. -/
inductive REvent where
  | attempt (r : Int)
  | powerDown
  | powerUp
deriving DecidableEq

/-- Loop body of `hx711_read_with_retry` (src/.c lines 172-190).
`read k` is the result of the k-th invocation of `hx711_read_improved`;
`rem` is `max_retries - retry_count`; `res` is the current content of the
local variable `result` (`none` while it is still uninitialised).  Returns
the final `result` together with the event trace. -/
def retryAux (read : Nat → Int) : Nat → Nat → Option Int → Option Int × List REvent
  | _, 0, res => (res, [])
  | k, rem + 1, _ =>
    let r := read k
    if r ≠ INT32_MIN ∧ r ≠ INT32_MAX then
      (some r, [REvent.attempt r])
    else
      let recov := if r = INT32_MIN then [REvent.powerDown, REvent.powerUp] else []
      let rest := retryAux read (k + 1) rem (some r)
      (rest.1, REvent.attempt r :: (recov ++ rest.2))

/-- `hx711_read_with_retry` (src/.c lines 167-193).  The result is `none`
exactly when the loop body never ran, i.e. when the C function returns its
uninitialised local `result`. -/
def hx711_read_with_retry (read : Nat → Int) (max_retries : Nat) :
    Option Int × List REvent :=
  retryAux read 0 max_retries none

/-- Timer handle: either the `EASY_TIMER_INVALID_TIMER` sentinel or a
handle returned by `app_easy_timer`. -/
inductive Handle where
  | invalid
  | valid (id : Nat)
deriving DecidableEq

/-- The static variables of `app_adcval1_timer_cb_handler_improved`
together with the global `adc_val_1` (src/.c lines 227-228, 262). -/
structure CbState where
  adc_timer : Handle
  consecutive_errors : Nat
  adc_val_1 : Int
deriving DecidableEq

/-- Result of one callback invocation: the updated state plus the
externally visible actions taken (number of `hx711_init` calls, whether a
notification was sent, whether the callback rescheduled itself). -/
structure CbOut where
  state : CbState
  inits : Nat
  notified : Bool
  rescheduled : Bool
deriving DecidableEq

/-- The static `max_consecutive_errors` (src/.c line 229). -/
def max_consecutive_errors : Nat := 5

/-- `app_adcval1_timer_cb_handler_improved` (src/.c lines 225-283).
`read` is the raw-read oracle consumed by `hx711_read_with_retry(3)`;
`connected` is the value of `ke_state_get(TASK_APP) == APP_CONNECTED`;
`newTimer` is the handle `app_easy_timer` would return this cycle.
Since the retry budget is 3 ≥ 1, the wrapped result is always `some`;
the `getD 0` default is never used (see `retry_pos_isSome`).
`consecutive_errors` is a `uint8_t`, hence the `% 256` increment. -/
def app_adcval1_timer_cb_handler_improved (read : Nat → Int) (connected : Bool)
    (newTimer : Nat) (s : CbState) : CbOut :=
  let hx_val := (hx711_read_with_retry read 3).1.getD 0
  if hx_val = INT32_MIN ∨ hx_val = INT32_MAX then
    let ce := (s.consecutive_errors + 1) % 256
    if max_consecutive_errors ≤ ce then
      { state := { adc_timer := if connected then Handle.valid newTimer else s.adc_timer,
                   consecutive_errors := 0, adc_val_1 := s.adc_val_1 },
        inits := 1, notified := false, rescheduled := connected }
    else
      { state := { adc_timer := if connected then Handle.valid newTimer else s.adc_timer,
                   consecutive_errors := ce, adc_val_1 := s.adc_val_1 },
        inits := 0, notified := false, rescheduled := connected }
  else
    { state := { adc_timer := if connected then Handle.valid newTimer else Handle.invalid,
                 consecutive_errors := 0, adc_val_1 := hx_val },
      inits := 0, notified := true, rescheduled := connected }

/-- The pure numeric value assembled by the bit loop: `bitsVal dout t f`
is the `f`-bit big-endian number formed by `dout t, dout (t+1), ...`. -/
def bitsVal (dout : Nat → Bool) : Nat → Nat → Nat
  | _, 0 => 0
  | t, f + 1 => (if dout t then 1 else 0) * 2 ^ f + bitsVal dout (t + 1) f

/-- Encoding of an integer as a 24-bit two's-complement pattern
(the claimed encode/decode law quantifies over `[-2^23, 2^23 - 1]`). -/
def encode24 (x : Int) : Nat := (x % 2 ^ 24).toNat

/-- Discriminator for attempt events. -/
def isAttempt : REvent → Bool
  | REvent.attempt _ => true
  | _ => false

/-- The phasing asserted by the retry claim: every attempt event in the
trace is immediately preceded by a power-down/power-up recovery pair. -/
def attemptPrecededByRecovery (tr : List REvent) : Prop :=
  ∀ i, i < tr.length →
    isAttempt (tr.getD i REvent.powerDown) = true →
    2 ≤ i ∧ tr.getD (i - 2) REvent.powerUp = REvent.powerDown ∧
      tr.getD (i - 1) REvent.powerDown = REvent.powerUp

/-- If DOUT reads high on every poll, the ready-wait loop runs its body
`timeout + 1` times (one per poll) and reports a timeout: the counter is
decremented `timeout` times and the final iteration observes zero. -/
theorem waitLoop_allHigh (dout : Nat → Bool) (hd : ∀ u, dout u = true) :
    ∀ timeout t, waitLoop dout timeout t = (true, t + timeout + 1) := by
  intro timeout
  induction timeout with
  | zero => intro t; simp [waitLoop, hd t]
  | succ tm ih =>
    intro t
    have h := ih (t + 1)
    rw [waitLoop, hd t]
    simp only [if_true, h, Prod.mk.injEq]
    exact ⟨trivial, by omega⟩

/-- ORing 1 into an even number sets its low bit: this is the
`value <<= 1; ...; value |= 1` idiom of the bit loop. -/
theorem two_mul_lor_one (m : Nat) : 2 * m ||| 1 = 2 * m + 1 := by
  apply Nat.eq_of_testBit_eq
  intro i
  cases i with
  | zero =>
    simp only [Nat.testBit_lor, Nat.testBit_zero]
    have h1 : 2 * m % 2 = 0 := by omega
    have h2 : (2 * m + 1) % 2 = 1 := by omega
    simp [h1, h2]
  | succ j =>
    rw [Nat.testBit_lor, Nat.testBit_add_one, Nat.testBit_add_one, Nat.testBit_add_one]
    have h1 : 2 * m / 2 = m := by omega
    have h2 : (2 * m + 1) / 2 = m := by omega
    have h3 : (1 : Nat) / 2 = 0 := by omega
    rw [h1, h2, h3, Nat.zero_testBit, Bool.or_false]

theorem bitsVal_lt (dout : Nat → Bool) : ∀ f t, bitsVal dout t f < 2 ^ f := by
  intro f
  induction f with
  | zero => intro t; simp [bitsVal]
  | succ f ih =>
    intro t
    have h := ih (t + 1)
    rw [bitsVal, pow_succ]
    rcases Bool.eq_false_or_eq_true (dout t) with hb | hb <;> simp [hb] <;> omega

/-- The shift loop computes the accumulator shifted past the incoming bits
plus their value; the `% 2 ^ 32` truncation never fires as long as the
result fits in 32 bits. -/
theorem readBitsLoop_eq (dout : Nat → Bool) :
    ∀ f t acc, f ≤ 32 → acc < 2 ^ (32 - f) →
    readBitsLoop dout f t acc = acc * 2 ^ f + bitsVal dout t f := by
  intro f
  induction f with
  | zero => intro t acc _ _; simp [readBitsLoop, bitsVal]
  | succ f ih =>
    intro t acc hf hacc
    have h31 : 32 - (f + 1) = 31 - f := by omega
    have hstep : (2 : Nat) ^ (31 - f) * 2 = 2 ^ (32 - f) := by
      rw [← pow_succ]
      congr 1
      omega
    rw [h31] at hacc
    have hmono : (2 : Nat) ^ (32 - f) ≤ 2 ^ 32 :=
      Nat.pow_le_pow_right (by norm_num) (by omega)
    have h2acc : 2 * acc + 1 < 2 ^ (32 - f) := by omega
    have hlt32 : acc * 2 < 2 ^ 32 := by omega
    cases hb : dout t with
    | false =>
      rw [readBitsLoop, bitsVal, hb]
      simp only [Bool.false_eq_true, if_false, Nat.mod_eq_of_lt hlt32]
      rw [ih (t + 1) (acc * 2) (by omega) (by omega)]
      rw [pow_succ]
      ring
    | true =>
      rw [readBitsLoop, bitsVal, hb]
      simp only [if_true, Nat.mod_eq_of_lt hlt32]
      have hone : acc * 2 ||| 1 = acc * 2 + 1 := by
        rw [(by ring : acc * 2 = 2 * acc), two_mul_lor_one]
      rw [hone, ih (t + 1) (acc * 2 + 1) (by omega) (by omega)]
      rw [pow_succ]
      ring

/-- Reading the bits of `n` MSB-first (bit `23 - j` at step `j`)
reconstructs the corresponding slice of `n`. -/
theorem bitsVal_testBit (n : Nat) :
    ∀ f t, f + t ≤ 24 →
    bitsVal (fun j => n.testBit (23 - j)) t f = n / 2 ^ (24 - t - f) % 2 ^ f := by
  intro f
  induction f with
  | zero => intro t h; simp [bitsVal, Nat.mod_one]
  | succ f ih =>
    intro t h
    have hrec := ih (t + 1) (by omega)
    have hd2 : 24 - (t + 1) - f = 24 - t - (f + 1) := by omega
    rw [hd2] at hrec
    rw [bitsVal, hrec]
    have hd1 : 23 - t = 24 - t - (f + 1) + f := by omega
    have hm : n / 2 ^ (24 - t - (f + 1)) / 2 ^ f = n / 2 ^ (24 - t - (f + 1) + f) := by
      rw [Nat.div_div_eq_div_mul, ← pow_add]
    have htb : n.testBit (23 - t) =
        decide (n / 2 ^ (24 - t - (f + 1)) / 2 ^ f % 2 = 1) := by
      rw [hm, hd1, Nat.testBit_to_div_mod]
    rw [htb, pow_succ, Nat.mod_mul]
    have hq : n / 2 ^ (24 - t - (f + 1)) / 2 ^ f % 2 = 0 ∨
        n / 2 ^ (24 - t - (f + 1)) / 2 ^ f % 2 = 1 := by omega
    rcases hq with h0 | h1
    · rw [h0]
      simp
    · rw [h1]
      simp
      omega

/-- The bit loop started on the accumulator 0 and fed the 24 bits of an
`n < 2 ^ 24` MSB-first reproduces `n`. -/
theorem assemble_testBit (n : Nat) (hn : n < 2 ^ 24) :
    readBitsLoop (fun j => n.testBit (23 - j)) 24 0 0 = n := by
  rw [readBitsLoop_eq _ 24 0 0 (by norm_num) (by norm_num)]
  have h := bitsVal_testBit n 24 0 (by omega)
  norm_num at h hn ⊢
  rw [h]
  omega

/-- For a 24-bit value, testing the mask `0x800000` is testing `2 ^ 23 ≤ n`. -/
theorem land_bit23 (n : Nat) (hn : n < 2 ^ 24) :
    (n &&& 0x800000 ≠ 0) ↔ 2 ^ 23 ≤ n := by
  have h : (0x800000 : Nat) = 2 ^ 23 := by norm_num
  rw [h, Nat.and_two_pow, Nat.testBit_to_div_mod]
  norm_num at hn ⊢
  by_cases hc : n / 8388608 % 2 = 1
  · simp [hc]
    omega
  · simp [hc]
    omega

/-- ORing `0xFF000000` into a 24-bit value is plain addition: the operands
have disjoint bits. -/
theorem lor_high (n : Nat) (hn : n < 2 ^ 24) : n ||| 0xFF000000 = n + 0xFF000000 := by
  have hsum : n + 0xFF000000 = 2 ^ 24 * 255 + n := by norm_num; omega
  have hff : (0xFF000000 : Nat) = 2 ^ 24 * 255 + 0 := by norm_num
  apply Nat.eq_of_testBit_eq
  intro j
  rw [Nat.testBit_lor, hsum, hff,
    Nat.testBit_mul_pow_two_add 255 hn j,
    Nat.testBit_mul_pow_two_add 255 (by norm_num) j]
  by_cases hj : j < 24
  · simp [hj, Nat.zero_testBit]
  · have hnj : n.testBit j = false :=
      Nat.testBit_lt_two_pow
        (Nat.lt_of_lt_of_le hn (Nat.pow_le_pow_right (by norm_num) (by omega)))
    simp [hj, hnj]

/-- Decoding a 24-bit pattern through the driver's sign-extension step and
the `int32_t` reinterpretation yields its two's-complement value. -/
theorem decode24_eq (n : Nat) (hn : n < 2 ^ 24) :
    toInt32 (signExtend24 n) =
      if 2 ^ 23 ≤ n then (n : Int) - 2 ^ 24 else (n : Int) := by
  unfold signExtend24 toInt32
  by_cases hc : 2 ^ 23 ≤ n
  · rw [if_pos ((land_bit23 n hn).mpr hc), lor_high n hn, if_pos hc]
    have hbig : ¬(n + 0xFF000000 < 2 ^ 31) := by omega
    rw [if_neg hbig]
    push_cast
    omega
  · have hzero : ¬(n &&& 0x800000 ≠ 0) := by
      rw [land_bit23 n hn]
      exact hc
    rw [if_neg hzero, if_neg hc]
    have hsmall : n < 2 ^ 31 := by omega
    rw [if_pos hsmall]

/-- The raw read returns either the timeout sentinel or the decoded value
of some 24-bit frame. -/
theorem read_value_cases (dout : Nat → Bool) :
    (hx711_read_improved dout).value = INT32_MIN ∨
    ∃ n, n < 2 ^ 24 ∧ (hx711_read_improved dout).value = toInt32 (signExtend24 n) := by
  unfold hx711_read_improved
  cases hw : (waitLoop dout HX711_TIMEOUT_COUNT 0).1 with
  | true =>
    left
    simp [hw]
  | false =>
    right
    refine ⟨readBitsLoop dout 24 (waitLoop dout HX711_TIMEOUT_COUNT 0).2 0, ?_, by simp [hw]⟩
    rw [readBitsLoop_eq dout 24 _ 0 (by norm_num) (by norm_num)]
    simpa using bitsVal_lt dout 24 (waitLoop dout HX711_TIMEOUT_COUNT 0).2

/-- Under an always-timing-out raw read, each loop iteration records one
attempt followed by the power-down/power-up recovery pair, and `result`
holds the timeout sentinel from the first iteration on. -/
theorem retryAux_allTimeout :
    ∀ rem k res, retryAux (fun _ => INT32_MIN) k rem res =
      ((if rem = 0 then res else some INT32_MIN),
       (List.replicate rem
          [REvent.attempt INT32_MIN, REvent.powerDown, REvent.powerUp]).flatten) := by
  intro rem
  induction rem with
  | zero => intro k res; simp [retryAux]
  | succ r ih =>
    intro k res
    rw [retryAux]
    simp only [ne_eq, not_true_eq_false, false_and, if_false, if_pos rfl]
    rw [ih (k + 1) (some INT32_MIN)]
    simp [List.replicate_succ]

/-- If the first `k` raw reads yield sentinels and the `(k+1)`-st yields a
valid value, the retry loop stops right at that attempt: the returned value
is the raw result, the trace records the `k` failing attempts (with their
recovery pairs for timeouts) and ends with the successful attempt, with no
recovery and no further attempt after it. -/
theorem retryAux_first_success (read : Nat → Int) :
    ∀ k s rem res, k < rem →
    (∀ j, j < k → read (s + j) = INT32_MIN ∨ read (s + j) = INT32_MAX) →
    read (s + k) ≠ INT32_MIN → read (s + k) ≠ INT32_MAX →
    retryAux read s rem res =
      (some (read (s + k)),
       ((List.range k).map (fun j => REvent.attempt (read (s + j)) ::
          (if read (s + j) = INT32_MIN
           then [REvent.powerDown, REvent.powerUp] else []))).flatten
        ++ [REvent.attempt (read (s + k))]) := by
  intro k
  induction k with
  | zero =>
    intro s rem res hk _ h1 h2
    rcases rem with _ | r
    · omega
    · rw [retryAux, if_pos ⟨h1, h2⟩]
      simp
  | succ k ih =>
    intro s rem res hk hfail h1 h2
    rcases rem with _ | r
    · omega
    · have hs := hfail 0 (by omega)
      rw [Nat.add_zero] at hs
      have hcond : ¬(read s ≠ INT32_MIN ∧ read s ≠ INT32_MAX) := by
        rcases hs with h | h <;> simp [h]
      rw [retryAux, if_neg hcond]
      have hrec := ih (s + 1) r (some (read s)) (by omega)
        (fun j hj => by
          have := hfail (j + 1) (by omega)
          rwa [(by omega : s + (j + 1) = s + 1 + j)] at this)
        (by rwa [(by omega : s + 1 + k = s + (k + 1))])
        (by rwa [(by omega : s + 1 + k = s + (k + 1))])
      rw [hrec]
      simp only [Prod.mk.injEq]
      constructor
      · rw [(by omega : s + 1 + k = s + (k + 1))]
      · rw [List.range_succ_eq_map]
        simp only [List.map_cons, List.flatten_cons, List.map_map, Nat.add_zero]
        rw [(by omega : s + 1 + k = s + (k + 1))]
        have hmaps : ((List.range k).map
            ((fun j => REvent.attempt (read (s + j)) ::
              (if read (s + j) = INT32_MIN
               then [REvent.powerDown, REvent.powerUp] else [])) ∘ Nat.succ)) =
            ((List.range k).map (fun j => REvent.attempt (read (s + 1 + j)) ::
              (if read (s + 1 + j) = INT32_MIN
               then [REvent.powerDown, REvent.powerUp] else []))) := by
          apply List.map_congr_left
          intro j _
          simp only [Function.comp]
          rw [(by omega : s + Nat.succ j = s + 1 + j)]
        rw [hmaps]
        rcases hs with h | h <;> simp [h]

/-- With a positive retry budget the local `result` is always assigned
before the function returns. -/
theorem retry_pos_isSome (read : Nat → Int) :
    ∀ rem k res, 1 ≤ rem → ((retryAux read k rem res).1).isSome = true := by
  intro rem
  induction rem with
  | zero => intro k res h; omega
  | succ r ih =>
    intro k res _
    rw [retryAux]
    by_cases hc : read k ≠ INT32_MIN ∧ read k ≠ INT32_MAX
    · rw [if_pos hc]
      rfl
    · rw [if_neg hc]
      rcases r with _ | r2
      · simp [retryAux]
      · simpa using ih (k + 1) (some (read k)) (by omega)

example : hx711_read_with_retry (fun _ => 0) 0 = (none, []) := by decide
example : (hx711_read_with_retry (fun _ => INT32_MIN) 1).2 =
    [REvent.attempt INT32_MIN, REvent.powerDown, REvent.powerUp] := by decide
example : (hx711_read_with_retry (fun _ => 7) 3).1 = some 7 := by decide
example : waitLoop (fun _ => true) 2 0 = (true, 3) := by decide
example : waitLoop (fun t => t != 1) 5 0 = (false, 2) := by decide
example : readBitsLoop (fun t => t == 0) 24 0 0 = 0x800000 := by decide
example : toInt32 (signExtend24 0x800000) = -(2 ^ 23) := by decide
example : toInt32 (signExtend24 0x123456) = 0x123456 := by decide

/-- If DOUT reads high on every sample, the raw read aborts in the
ready-wait loop: it polls `HX711_TIMEOUT_COUNT + 1` times, returns the
timeout sentinel and never reaches the bit loop. -/
theorem read_allHigh (dout : Nat → Bool) (hd : ∀ u, dout u = true) :
    hx711_read_improved dout =
      { value := INT32_MIN, polls := HX711_TIMEOUT_COUNT + 1,
        bitsClocked := 0, clockPulses := 0 } := by
  unfold hx711_read_improved
  rw [waitLoop_allHigh dout hd HX711_TIMEOUT_COUNT 0]
  simp

/-- C4: if the data-ready line reads high on every poll, the raw read
returns exactly the TIMEOUT sentinel `INT32_MIN`, clocks no bit of the
24-bit frame (the shift loop never runs, so the accumulator is never
updated) and issues no clock pulse. -/
theorem C4_timeout_returns_sentinel_without_clocking (dout : Nat → Bool)
    (hd : ∀ u, dout u = true) :
    (hx711_read_improved dout).value = INT32_MIN ∧
    (hx711_read_improved dout).bitsClocked = 0 ∧
    (hx711_read_improved dout).clockPulses = 0 := by
  rw [read_allHigh dout hd]
  exact ⟨rfl, rfl, rfl⟩

/-- Witness for C4 at the concrete always-high pin. -/
theorem C4_witness :
    (hx711_read_improved (fun _ => true)).value = INT32_MIN ∧
    (hx711_read_improved (fun _ => true)).bitsClocked = 0 ∧
    (hx711_read_improved (fun _ => true)).clockPulses = 0 :=
  C4_timeout_returns_sentinel_without_clocking (fun _ => true) (fun _ => rfl)

/-- C5 counterexample: with the data line high on every poll the raw read
polls the line 50,001 times, not 50,000 — the counter is decremented
50,000 times and the final loop iteration polls once more before
observing the exhausted counter. -/
theorem C5_counterexample :
    (hx711_read_improved (fun _ => true)).polls = 50001 ∧
    (hx711_read_improved (fun _ => true)).polls ≠ 50000 := by
  rw [read_allHigh (fun _ => true) (fun _ => rfl)]
  exact ⟨by norm_num [HX711_TIMEOUT_COUNT], by norm_num [HX711_TIMEOUT_COUNT]⟩

/-- C5 (amended): when the data-ready line never goes low, the ready-wait
loop polls the data line exactly 50,001 times — one poll per loop
iteration, 50,000 iterations that decrement the timeout counter plus the
final iteration that observes it exhausted — before aborting with the
TIMEOUT sentinel. -/
theorem C5_poll_count (dout : Nat → Bool) (hd : ∀ u, dout u = true) :
    (hx711_read_improved dout).polls = HX711_TIMEOUT_COUNT + 1 ∧
    (hx711_read_improved dout).value = INT32_MIN := by
  rw [read_allHigh dout hd]
  exact ⟨rfl, rfl⟩

/-- Witness for C5 at the concrete always-high pin. -/
theorem C5_witness :
    (hx711_read_improved (fun _ => true)).polls = HX711_TIMEOUT_COUNT + 1 ∧
    (hx711_read_improved (fun _ => true)).value = INT32_MIN :=
  C5_poll_count (fun _ => true) (fun _ => rfl)

/-- C2: for every `x` in `[-2^23, 2^23 - 1]`, encoding `x` as a 24-bit
two's-complement pattern, assembling its bits MSB-first into the
accumulator exactly as the bit loop does, applying the driver's
sign-extension step and reading the result back as an `int32_t` yields
`x` again. -/
theorem C2_encode_decode_roundtrip (x : Int)
    (h1 : -(2 ^ 23) ≤ x) (h2 : x < 2 ^ 23) :
    toInt32 (signExtend24
      (readBitsLoop (fun j => (encode24 x).testBit (23 - j)) 24 0 0)) = x := by
  have hn : encode24 x < 2 ^ 24 := by unfold encode24; omega
  have hcast : (encode24 x : Int) = x % 2 ^ 24 := by unfold encode24; omega
  rw [assemble_testBit (encode24 x) hn, decode24_eq (encode24 x) hn]
  by_cases hc : 2 ^ 23 ≤ encode24 x
  · rw [if_pos hc]
    omega
  · rw [if_neg hc]
    omega

/-- Witness for C2 at the spec's scenario value `0x123456`. -/
theorem C2_witness :
    toInt32 (signExtend24
      (readBitsLoop (fun j => (encode24 0x123456).testBit (23 - j)) 24 0 0)) =
      0x123456 :=
  C2_encode_decode_roundtrip 0x123456 (by norm_num) (by norm_num)

/-- C7: the raw read never returns the COMM_ERROR sentinel `INT32_MAX`:
the post-gain-pulse check of the data line is read but discarded, so the
communication-error condition is never propagated to the caller. -/
theorem C7_comm_error_never_returned (dout : Nat → Bool) :
    (hx711_read_improved dout).value ≠ INT32_MAX := by
  rcases read_value_cases dout with h | ⟨n, hn, h⟩
  · rw [h]
    unfold INT32_MIN INT32_MAX
    omega
  · rw [h, decode24_eq n hn]
    unfold INT32_MAX
    by_cases hc : 2 ^ 23 ≤ n
    · rw [if_pos hc]
      omega
    · rw [if_neg hc]
      omega

/-- C9: every value the raw read returns is the TIMEOUT sentinel, the
COMM_ERROR sentinel, or a sign-extended sample in the 24-bit
two's-complement range `[-2^23, 2^23 - 1]`; both sentinels lie strictly
outside that range. -/
theorem C9_return_range (dout : Nat → Bool) :
    ((hx711_read_improved dout).value = INT32_MIN ∨
     (hx711_read_improved dout).value = INT32_MAX ∨
     (-(2 ^ 23) ≤ (hx711_read_improved dout).value ∧
      (hx711_read_improved dout).value ≤ 2 ^ 23 - 1)) ∧
    INT32_MIN < -(2 ^ 23) ∧ (2 ^ 23 - 1 : Int) < INT32_MAX := by
  refine ⟨?_, by unfold INT32_MIN; omega, by unfold INT32_MAX; omega⟩
  rcases read_value_cases dout with h | ⟨n, hn, h⟩
  · exact Or.inl h
  · refine Or.inr (Or.inr ?_)
    rw [h, decode24_eq n hn]
    by_cases hc : 2 ^ 23 ≤ n
    · rw [if_pos hc]
      omega
    · rw [if_neg hc]
      omega

/-- C10: called with `max_retries = 0`, the retry wrapper performs zero
raw-read attempts and returns its local `result` without it ever having
been assigned (`none` in the model): the "return the last error sentinel"
contract is only meaningful for `max_retries ≥ 1`. -/
theorem C10_zero_retries_uninitialized (read : Nat → Int) :
    hx711_read_with_retry read 0 = (none, []) := rfl

/-- C3 counterexample: with one retry and an always-timing-out raw read
the event trace is attempt-then-recovery, so it is false that every
attempt is preceded by a power-down/power-up recovery pair (the first
attempt is preceded by nothing). -/
theorem C3_counterexample :
    ¬ attemptPrecededByRecovery
        (hx711_read_with_retry (fun _ => INT32_MIN) 1).2 := by
  intro h
  have := h 0 (by decide) (by decide)
  omega

/-- C3 (amended): for every `N ≥ 1`, if every raw read returns the TIMEOUT
sentinel, `hx711_read_with_retry N` performs exactly `N` raw-read
attempts, each attempt followed by one power-down/power-up recovery pair,
and returns the TIMEOUT sentinel `INT32_MIN`. -/
theorem C3_all_timeouts_exhausts_retries (N : Nat) (hN : 1 ≤ N) :
    hx711_read_with_retry (fun _ => INT32_MIN) N =
      (some INT32_MIN,
       (List.replicate N
          [REvent.attempt INT32_MIN, REvent.powerDown, REvent.powerUp]).flatten) := by
  unfold hx711_read_with_retry
  rw [retryAux_allTimeout N 0 none]
  rcases N with _ | n
  · omega
  · simp

/-- Witness for C3 at `N = 1`. -/
theorem C3_witness :
    hx711_read_with_retry (fun _ => INT32_MIN) 1 =
      (some INT32_MIN,
       (List.replicate 1
          [REvent.attempt INT32_MIN, REvent.powerDown, REvent.powerUp]).flatten) :=
  C3_all_timeouts_exhausts_retries 1 (by norm_num)

/-- C6: for every retry budget and every result sequence, the retry
wrapper returns at the first attempt whose result differs from both
sentinels, returning that result unchanged; the trace ends at that
attempt, so no recovery step and no further attempt happens after it. -/
theorem C6_first_valid_returned (read : Nat → Int) (N k : Nat) (hk : k < N)
    (hfail : ∀ j, j < k → read j = INT32_MIN ∨ read j = INT32_MAX)
    (h1 : read k ≠ INT32_MIN) (h2 : read k ≠ INT32_MAX) :
    hx711_read_with_retry read N =
      (some (read k),
       ((List.range k).map (fun j => REvent.attempt (read j) ::
          (if read j = INT32_MIN
           then [REvent.powerDown, REvent.powerUp] else []))).flatten
        ++ [REvent.attempt (read k)]) := by
  unfold hx711_read_with_retry
  have h := retryAux_first_success read k 0 N none hk
    (fun j hj => by simpa using hfail j hj)
    (by simpa using h1) (by simpa using h2)
  simpa using h

/-- Witness for C6: two timeouts then the valid reading 42, budget 3. -/
theorem C6_witness :
    hx711_read_with_retry (fun j => if j < 2 then INT32_MIN else (42 : Int)) 3 =
      (some 42,
       [REvent.attempt INT32_MIN, REvent.powerDown, REvent.powerUp,
        REvent.attempt INT32_MIN, REvent.powerDown, REvent.powerUp,
        REvent.attempt 42]) := by
  have h := C6_first_valid_returned
    (fun j => if j < 2 then INT32_MIN else (42 : Int)) 3 2
    (by norm_num) (by decide) (by decide) (by decide)
  simpa using h

/-- C1 counterexample: the connection is down and the read fails
(every raw read times out), yet the stored timer handle is not set to the
invalid sentinel — it retains its previous value `Handle.valid 3`,
because the error path of the callback has no else-branch clearing it. -/
theorem C1_counterexample :
    (app_adcval1_timer_cb_handler_improved (fun _ => INT32_MIN) false 7
        { adc_timer := Handle.valid 3, consecutive_errors := 0,
          adc_val_1 := 0 }).state.adc_timer ≠ Handle.invalid := by
  decide

/-- C1 (amended): whenever the connection state is no longer "connected",
the callback does not reschedule itself; on a successful read the stored
timer handle is set to the invalid-timer sentinel, but on a failed read
the handle retains its previous value. -/
theorem C1_disconnected_no_reschedule (read : Nat → Int) (newTimer : Nat)
    (s : CbState) :
    (app_adcval1_timer_cb_handler_improved read false newTimer s).rescheduled
        = false ∧
    (app_adcval1_timer_cb_handler_improved read false newTimer s).state.adc_timer
        = (if (hx711_read_with_retry read 3).1.getD 0 = INT32_MIN ∨
              (hx711_read_with_retry read 3).1.getD 0 = INT32_MAX
           then s.adc_timer else Handle.invalid) := by
  simp only [app_adcval1_timer_cb_handler_improved]
  by_cases hc : (hx711_read_with_retry read 3).1.getD 0 = INT32_MIN ∨
      (hx711_read_with_retry read 3).1.getD 0 = INT32_MAX
  · simp only [if_pos hc]
    split <;> exact ⟨by trivial, by simp⟩
  · simp only [if_neg hc]
    exact ⟨by trivial, by simp⟩

/-- C8: starting from any reachable counter value (the counter never
exceeds 4 between invocations), a failed read increments the
consecutive-error counter; when the incremented counter reaches the
threshold 5 the callback performs exactly one full initialize and resets
the counter to zero; any successful read resets the counter to zero
regardless of how many failures preceded it.  The bound `≤ 4` is itself
preserved. -/
theorem C8_consecutive_error_counter (read : Nat → Int) (connected : Bool)
    (newTimer : Nat) (s : CbState) (hs : s.consecutive_errors ≤ 4) :
    (app_adcval1_timer_cb_handler_improved read connected newTimer
        s).state.consecutive_errors =
      (if (hx711_read_with_retry read 3).1.getD 0 = INT32_MIN ∨
          (hx711_read_with_retry read 3).1.getD 0 = INT32_MAX
       then (if s.consecutive_errors = 4 then 0 else s.consecutive_errors + 1)
       else 0) ∧
    (app_adcval1_timer_cb_handler_improved read connected newTimer s).inits =
      (if ((hx711_read_with_retry read 3).1.getD 0 = INT32_MIN ∨
           (hx711_read_with_retry read 3).1.getD 0 = INT32_MAX) ∧
          s.consecutive_errors = 4
       then 1 else 0) ∧
    (app_adcval1_timer_cb_handler_improved read connected newTimer
        s).state.consecutive_errors ≤ 4 := by
  simp only [app_adcval1_timer_cb_handler_improved]
  by_cases hc : (hx711_read_with_retry read 3).1.getD 0 = INT32_MIN ∨
      (hx711_read_with_retry read 3).1.getD 0 = INT32_MAX
  · by_cases h4 : s.consecutive_errors = 4
    · have h5 : max_consecutive_errors ≤ (s.consecutive_errors + 1) % 256 := by
        unfold max_consecutive_errors
        omega
      simp only [if_pos hc, if_pos h5, if_pos h4, if_pos (And.intro hc h4)]
      refine ⟨by trivial, by trivial, by norm_num⟩
    · have h5 : ¬ max_consecutive_errors ≤ (s.consecutive_errors + 1) % 256 := by
        unfold max_consecutive_errors
        omega
      have hno : ¬(((hx711_read_with_retry read 3).1.getD 0 = INT32_MIN ∨
          (hx711_read_with_retry read 3).1.getD 0 = INT32_MAX) ∧
          s.consecutive_errors = 4) := fun h => h4 h.2
      simp only [if_pos hc, if_neg h5, if_neg h4, if_neg hno]
      refine ⟨by omega, by trivial, by omega⟩
  · have hno : ¬(((hx711_read_with_retry read 3).1.getD 0 = INT32_MIN ∨
        (hx711_read_with_retry read 3).1.getD 0 = INT32_MAX) ∧
        s.consecutive_errors = 4) := fun h => hc h.1
    simp only [if_neg hc, if_neg hno]
    refine ⟨by trivial, by trivial, by norm_num⟩

/-- Witness for C8: counter at 4, connection up, every raw read times out:
the callback reinitializes exactly once and resets the counter to zero. -/
theorem C8_witness :
    (app_adcval1_timer_cb_handler_improved (fun _ => INT32_MIN) true 0
        { adc_timer := Handle.invalid, consecutive_errors := 4,
          adc_val_1 := 0 }).state.consecutive_errors =
      (if (hx711_read_with_retry (fun _ => INT32_MIN) 3).1.getD 0 = INT32_MIN ∨
          (hx711_read_with_retry (fun _ => INT32_MIN) 3).1.getD 0 = INT32_MAX
       then (if (4 : Nat) = 4 then 0 else 4 + 1) else 0) ∧
    (app_adcval1_timer_cb_handler_improved (fun _ => INT32_MIN) true 0
        { adc_timer := Handle.invalid, consecutive_errors := 4,
          adc_val_1 := 0 }).inits =
      (if ((hx711_read_with_retry (fun _ => INT32_MIN) 3).1.getD 0 = INT32_MIN ∨
           (hx711_read_with_retry (fun _ => INT32_MIN) 3).1.getD 0 = INT32_MAX) ∧
          (4 : Nat) = 4
       then 1 else 0) ∧
    (app_adcval1_timer_cb_handler_improved (fun _ => INT32_MIN) true 0
        { adc_timer := Handle.invalid, consecutive_errors := 4,
          adc_val_1 := 0 }).state.consecutive_errors ≤ 4 :=
  C8_consecutive_error_counter (fun _ => INT32_MIN) true 0
    { adc_timer := Handle.invalid, consecutive_errors := 4, adc_val_1 := 0 }
    (by norm_num)

end HX711
